import Mathlib

/-!
Verification development for the musicserver1 repository
(src/ai_variation.rs, src/synth_sounds.rs, src/bin/replayer.rs).

The embedding models time and control values as rationals.  Types that
live in the library crate rather than under src/ (Melody, PendingNote,
SliderValue, ChooserTable, MelodyMaker, Adsr, the analyzer tables and
the queue helpers) are modelled from the specification; each such
definition carries a doc comment starting with the words `Modelled from
the spec`.  Everything else is translated directly from the Rust source.
-/

/-- Modelled from the spec: the two note-stream message kinds the core
reacts to, NoteOn and NoteOff with pitch and velocity, plus a stand-in
for every other channel-voice message kind (observed but ignored). -/
inductive ChannelVoiceMsg where
  | NoteOn (note : Nat) (velocity : Nat)
  | NoteOff (note : Nat) (velocity : Nat)
  | OtherVoice
deriving DecidableEq

/-- Modelled from the spec: a device event is either a channel-voice
message or some other MIDI message kind. -/
inductive MidiMsg where
  | ChannelVoice (msg : ChannelVoiceMsg)
  | OtherMsg
deriving DecidableEq

/-- Tag distinguishing human-originated from AI-originated events on the
output queue (from the repository crate, used verbatim by src files). -/
inductive SynthChoice where
  | Human
  | Ai
deriving DecidableEq

/-- Modelled from the spec: a Melody event is a Note with pitch,
velocity and duration, or a Rest with a duration. -/
inductive MEvent where
  | note (pitch velocity : Nat) (duration : ℚ)
  | rest (duration : ℚ)
deriving DecidableEq

/-- Modelled from the spec: a Melody is an ordered sequence of timed
events. -/
abbrev Melody := List MEvent

/-- Modelled from the spec: Melody construction starts empty. -/
def Melody.new : Melody := []

/-- Modelled from the spec: appending one event to a Melody under
construction. -/
def Melody.add (m : Melody) (e : MEvent) : Melody := m ++ [e]

/-- Duration of a single event. -/
def MEvent.duration : MEvent → ℚ
  | MEvent.note _ _ d => d
  | MEvent.rest d => d

/-- Whether an event is a Rest. -/
def MEvent.isRest : MEvent → Bool
  | MEvent.note _ _ _ => false
  | MEvent.rest _ => true

/-- Modelled from the spec: Melody.duration is the sum of the durations
of its events (the spec invariant makes this the total elapsed span). -/
def Melody.duration (m : Melody) : ℚ := (m.map MEvent.duration).sum

/-- Pitches of the sounding (non-rest) events of a melody, in order. -/
def Melody.pitchSeq (m : Melody) : List Nat :=
  m.filterMap fun e =>
    match e with
    | MEvent.note p _ _ => some p
    | MEvent.rest _ => none

/-- Count of adjacent unequal pairs in a list of pitches. -/
def countChanges : List Nat → Nat
  | [] => 0
  | [_] => 0
  | a :: b :: t => (if a ≠ b then 1 else 0) + countChanges (b :: t)

/-- Modelled from the spec: Melody.num_pitch_changes counts the distinct
pitch-changing events, i.e. the transitions between consecutive sounding
notes of different pitch. -/
def Melody.num_pitch_changes (m : Melody) : Nat := countChanges m.pitchSeq

/-- Modelled from the spec: a PendingNote is a transient record of
pitch, velocity and start timestamp, opened for each incoming
note-on/note-off event. -/
structure PendingNote where
  pitch : Nat
  velocity : Nat
  timestamp : ℚ
deriving DecidableEq

/-- Modelled from the spec: a PendingNote represents a rest (no sounding
note) exactly when its velocity is zero; both incoming event kinds are
collapsed by the recorder to the same constructor call, so velocity is
the only datum that can distinguish silence from sound. -/
def PendingNote.is_rest (p : PendingNote) : Bool := p.velocity == 0

/-- Modelled from the spec: elapsed time of a pending note at wall-clock
instant `now`. -/
def PendingNote.elapsed (p : PendingNote) (now : ℚ) : ℚ := now - p.timestamp

/-- Modelled from the spec: resolving a PendingNote into a Melody event
at instant `now`: a Rest when it represents silence, else a Note; its
duration is the elapsed time. -/
def pendingToEvent (p : PendingNote) (now : ℚ) : MEvent :=
  if p.velocity == 0 then MEvent.rest (p.elapsed now)
  else MEvent.note p.pitch p.velocity (p.elapsed now)

/-- State of PlayerRecorder (src/ai_variation.rs): the open pending
note, the melody under construction, and the contents pushed so far to
the ai2output queue. -/
structure PlayerRecorder where
  waiting : Option PendingNote
  player_melody : Melody
  ai2output : List (SynthChoice × MidiMsg)
deriving DecidableEq

/-- PlayerRecorder.handle_incoming (src/ai_variation.rs lines 94-108):
on a note-on or note-off, close any open pending note into the melody
and open a new pending note for the incoming event; other messages
change nothing; every consumed message is pushed to ai2output tagged
Human. -/
def handle_incoming (r : PlayerRecorder) (msg : MidiMsg) (now : ℚ) : PlayerRecorder :=
  let r1 :=
    match msg with
    | MidiMsg.ChannelVoice (ChannelVoiceMsg.NoteOff note velocity)
    | MidiMsg.ChannelVoice (ChannelVoiceMsg.NoteOn note velocity) =>
      let melody1 :=
        match r.waiting with
        | some pending => Melody.add r.player_melody (pendingToEvent pending now)
        | none => r.player_melody
      { r with player_melody := melody1, waiting := some ⟨note, velocity, now⟩ }
    | _ => r
  { r1 with ai2output := r1.ai2output ++ [(SynthChoice.Human, msg)] }

/-- PlayerRecorder.check_if_finished (src/ai_variation.rs lines
110-118): sample the replay-delay slider; if the pending note is a rest
whose elapsed time exceeds it, append the resolved event and report the
phrase finished, otherwise change nothing. -/
def check_if_finished (r : PlayerRecorder) (pending_note : PendingNote)
    (now replay_delay : ℚ) : PlayerRecorder × Bool :=
  if pending_note.is_rest ∧ replay_delay < pending_note.elapsed now then
    ({ r with player_melody := Melody.add r.player_melody (pendingToEvent pending_note now) },
      true)
  else (r, false)

/-- One iteration of the record loop as observed by the recorder: the
message popped from input2ai (if any), the wall-clock instant, and the
replay-delay slider value sampled at that instant. -/
structure RecorderTick where
  pop : Option MidiMsg
  now : ℚ
  replay_delay : ℚ
deriving DecidableEq

/-- One iteration of the while-loop body of PlayerRecorder.record
(src/ai_variation.rs lines 79-87). -/
def recordStep (r : PlayerRecorder) (it : RecorderTick) : PlayerRecorder × Bool :=
  let r1 :=
    match it.pop with
    | some msg => handle_incoming r msg it.now
    | none => r
  match r1.waiting with
  | some pending_note => check_if_finished r1 pending_note it.now it.replay_delay
  | none => (r1, false)

/-- The record loop over a finite trace of iterations; returns the final
recorder state when the phrase terminates within the trace, none when
the trace runs out first. -/
def recordLoop : PlayerRecorder → List RecorderTick → Option PlayerRecorder
  | _, [] => none
  | r, it :: rest =>
    let s := recordStep r it
    if s.2 then some s.1 else recordLoop s.1 rest

/-- Modelled from the spec: Melody.synchronize_rests normalizes rest
durations on phrase completion; the spec states no concrete
normalization beyond preserving the event sequence, so it is modelled
as leaving the melody unchanged. -/
def synchronize_rests (m : Melody) : Melody := m

/-- PlayerRecorder.record (src/ai_variation.rs lines 76-92): clear the
pending note, loop until finished, then swap out the recorded melody,
synchronize its rests and return it. -/
def record (r : PlayerRecorder) (trace : List RecorderTick) :
    Option (Melody × PlayerRecorder) :=
  (recordLoop { r with waiting := none } trace).map
    fun fin => (synchronize_rests fin.player_melody, { fin with player_melody := [] })

/-- Modelled from the spec: the recognized melodic figure lengths from
the analyzer module (absent from src/); the spec fixes their minimum at
3. -/
def FIGURE_LENGTHS : List Nat := [3, 4]

/-- Minimum pitch-change count required of a variation
(src/ai_variation.rs line 40: the minimum of FIGURE_LENGTHS). -/
def min_melody_pitches : Nat := FIGURE_LENGTHS.min?.getD 0

/-- Message carrying an original melody and its variation to the
persistence queue (repository crate type used verbatim by src files). -/
structure FromAiMsg where
  melody : Melody
  variation : Melody
deriving DecidableEq

/-- Modelled from the spec: send_recorded_melody forwards each sounding
note of a melody to the output queue as a note-on/note-off pair tagged
with the given source. -/
def send_recorded_melody (m : Melody) (choice : SynthChoice) :
    List (SynthChoice × MidiMsg) :=
  m.flatMap fun e =>
    match e with
    | MEvent.note p v _ =>
      [(choice, MidiMsg.ChannelVoice (ChannelVoiceMsg.NoteOn p v)),
       (choice, MidiMsg.ChannelVoice (ChannelVoiceMsg.NoteOff p 0))]
    | MEvent.rest _ => []

/-- The acceptance gate of the AI thread loop (src/ai_variation.rs line
45): the variation must have at least min_melody_pitches pitch changes
and a duration strictly exceeding the replay-delay slider value. -/
def acceptsVariation (variation : Melody) (replay_delay : ℚ) : Bool :=
  decide (min_melody_pitches ≤ variation.num_pitch_changes)
    && decide (replay_delay < variation.duration)

/-- The conditional tail of one AI thread loop cycle (src/ai_variation.rs
lines 45-48): when the gate accepts, push the melody/variation pair to
the persistence queue and send the variation to playback; otherwise
leave both queues unchanged. -/
def aiCycle (melody variation : Melody) (replay_delay : ℚ)
    (ai2dbase : List FromAiMsg) (ai2output : List (SynthChoice × MidiMsg)) :
    List FromAiMsg × List (SynthChoice × MidiMsg) :=
  if acceptsVariation variation replay_delay then
    (ai2dbase ++ [⟨melody, variation⟩],
     ai2output ++ send_recorded_melody variation SynthChoice.Ai)
  else (ai2dbase, ai2output)

/-- Modelled from the spec: MelodyMaker holds the randomness source of
the variation engine, modelled as an explicit stream of uniform draws so
that randomness is a first-class input. -/
structure MelodyMaker where
  rand : List ℚ
deriving DecidableEq

instance : Inhabited MelodyMaker := ⟨⟨[]⟩⟩

/-- Type of the variation strategies stored in the AI catalog
(src/ai_variation.rs line 9): a function of the melody maker, the source
melody and the randomization probability. -/
abbrev AIFunc := MelodyMaker → Melody → ℚ → Melody × MelodyMaker

/-- The Bypass strategy (src/ai_variation.rs line 14): ignore every
input and return a fresh empty Melody. -/
def bypass : AIFunc := fun maker _ _ => (Melody.new, maker)

/-- Modelled from the spec: stand-in for
MelodyMaker::create_emphasis_variation (absent from src/), a
content-preserving strategy. -/
def create_emphasis_variation : AIFunc := fun maker m _ => (m, maker)

/-- Modelled from the spec: stand-in for
MelodyMaker::create_figure_mapped_variation (absent from src/), a
content-preserving strategy. -/
def create_figure_mapped_variation : AIFunc := fun maker m _ => (m, maker)

/-- Modelled from the spec: stand-in for
MelodyMaker::create_whimsical_variation (absent from src/), a
structurally creative strategy. -/
def create_whimsical_variation : AIFunc := fun maker m _ => (m.reverse, maker)

/-- Modelled from the spec: ChooserTable holds an ordered list of named
entries and a current-selection index. -/
structure ChooserTable (α : Type) where
  choices : List (String × α)
  choice : Nat

/-- Name of the currently selected entry (empty when the index is out of
range). -/
def ChooserTable.current_name {α : Type} (t : ChooserTable α) : String :=
  ((t.choices.get? t.choice).map Prod.fst).getD ""

/-- Modelled from the spec: ChooserTable.current_choice returns the
currently selected entry; the selection index is kept valid by the
control surface, so the fallback value is immaterial. -/
def ChooserTable.current_choice {α : Type} [Inhabited α] (t : ChooserTable α) : α :=
  ((t.choices.get? t.choice).map Prod.snd).getD default

/-- make_ai_table (src/ai_variation.rs lines 12-20): the catalog of the
four variation strategies, Bypass first, initial selection at the first
entry. -/
def make_ai_table : ChooserTable AIFunc :=
  { choices := [("Bypass", bypass),
                ("Emphasis-Anchored Choice", create_emphasis_variation),
                ("Consistent Figure Replacement", create_figure_mapped_variation),
                ("Whimsical Variation", create_whimsical_variation)],
    choice := 0 }

/-- Modelled from the spec: one ornamentation pass over a melody.  Each
sounding note is an insertion opportunity; a decorative note is inserted
after it when the next uniform draw falls below the ornamentation
probability and at least `gap` events have passed since the last
insertion. -/
def ornamentPass (p : ℚ) (gap : ℤ) : List ℚ → ℤ → Melody → Melody
  | _, _, [] => []
  | draws, since, MEvent.rest d :: rest =>
    MEvent.rest d :: ornamentPass p gap draws (since + 1) rest
  | [], since, MEvent.note pt v d :: rest =>
    MEvent.note pt v d :: ornamentPass p gap [] (since + 1) rest
  | draw :: draws1, since, MEvent.note pt v d :: rest =>
    if gap ≤ since ∧ draw < p then
      MEvent.note pt v d :: MEvent.note (pt + 1) v (d / 2)
        :: ornamentPass p gap draws1 0 rest
    else
      MEvent.note pt v d :: ornamentPass p gap draws1 (since + 1) rest

/-- Modelled from the spec: MelodyMaker::ornamented (absent from src/)
probabilistically inserts decorative notes no closer together than the
configured gap, drawing randomness from the maker. -/
def ornamented (maker : MelodyMaker) (m : Melody) (p_ornament : ℚ)
    (ornament_gap : ℤ) : Melody × MelodyMaker :=
  (ornamentPass p_ornament ornament_gap maker.rand ornament_gap m, maker)

/-- Modelled from the spec: a SliderValue holds the current value and
the bounds of one tunable control. -/
structure SliderValue (α : Type) where
  current : α
  lo : α
  hi : α

/-- Performer state (src/ai_variation.rs lines 121-127): the melody
maker, the slider cells as sampled at call time, and the strategy
catalog. -/
structure Performer where
  maker : MelodyMaker
  p_random_slider : SliderValue ℚ
  p_ornament_slider : SliderValue ℚ
  ornament_gap_slider : SliderValue ℤ
  ai_table : ChooserTable AIFunc

/-- Performer::from_slider (src/ai_variation.rs lines 145-147): load the
current value of a slider. -/
def from_slider {α : Type} (s : SliderValue α) : α := s.current

/-- Performer::create_variation (src/ai_variation.rs lines 149-159):
read the three slider values, take the currently selected strategy from
the catalog, apply it, then apply the ornamentation pass. -/
def create_variation (perf : Performer) (melody : Melody) : Melody × Performer :=
  let p_random := from_slider perf.p_random_slider
  let p_ornament := from_slider perf.p_ornament_slider
  let ornament_gap := from_slider perf.ornament_gap_slider
  let var_func := ChooserTable.current_choice perf.ai_table
  let vm := var_func perf.maker melody p_random
  let rm := ornamented vm.2 vm.1 p_ornament ornament_gap
  (rm.1, { perf with maker := rm.2 })

/-- Modelled from the spec: the ADSR envelope state of one voice, with
attack, decay and release durations, the sustain level, and the instant
at which release was signalled (none while the note is held). -/
structure Adsr where
  attack : ℚ
  decay : ℚ
  sustain : ℚ
  release : ℚ
  released_at : Option ℚ
deriving DecidableEq

/-- Modelled from the spec: the envelope gain before any release signal:
linear rise to 1 over the attack, linear fall to the sustain level over
the decay, then the sustain level. -/
def Adsr.base (a : Adsr) (u : ℚ) : ℚ :=
  if u < a.attack then (if a.attack = 0 then 1 else u / a.attack)
  else if u < a.attack + a.decay then
    (if a.decay = 0 then a.sustain
     else 1 - (1 - a.sustain) * ((u - a.attack) / a.decay))
  else a.sustain

/-- Modelled from the spec: Adsr.volume at time t returns the
instantaneous gain, and returns none exactly when the release has
completed (t at least the release instant plus the release duration),
the terminal Silent state signalling registry removal. -/
def Adsr.volume (a : Adsr) (t : ℚ) : Option ℚ :=
  match a.released_at with
  | none => some (a.base t)
  | some tr =>
    if t < tr then some (a.base t)
    else if t < tr + a.release then
      some (a.base tr * (if a.release = 0 then 0 else 1 - (t - tr) / a.release))
    else none

/-- The notes_in_use registry of src/synth_sounds.rs, a map from pitch
to envelope state, modelled as an association list. -/
abbrev VoiceRegistry := List (Nat × Adsr)

/-- Lookup of a pitch in the registry. -/
def lookupVoice : VoiceRegistry → Nat → Option Adsr
  | [], _ => none
  | (p, a) :: rest, pitch => if p = pitch then some a else lookupVoice rest pitch

/-- Removal of a pitch from the registry. -/
def removeVoice (reg : VoiceRegistry) (pitch : Nat) : VoiceRegistry :=
  reg.filter fun pr => pr.1 != pitch

/-- One evaluation of the gain closure inside adsr_tri
(src/synth_sounds.rs lines 17-29): look the pitch up; emit its envelope
volume at t, or 0.0 with a quit flag when the envelope returns no
value, or 0.0 when the pitch is absent; on quit remove the pitch.
Returns the emitted gain and the registry afterwards. -/
def adsr_tri_gain (pitch : Nat) (reg : VoiceRegistry) (t : ℚ) : ℚ × VoiceRegistry :=
  let qr : Bool × ℚ :=
    match lookupVoice reg pitch with
    | none => (false, 0)
    | some adsr =>
      match adsr.volume t with
      | some v => (false, v)
      | none => (true, 0)
  if qr.1 then (qr.2, removeVoice reg pitch) else (qr.2, reg)

/-- Iterated evaluation of the adsr_tri gain closure over a list of
sample times, collecting the emitted gains and the final registry. -/
def adsr_tri_run (pitch : Nat) : VoiceRegistry → List ℚ → List ℚ × VoiceRegistry
  | reg, [] => ([], reg)
  | reg, t :: ts =>
    let s := adsr_tri_gain pitch reg t
    let r := adsr_tri_run pitch s.2 ts
    (s.1 :: r.1, r.2)

/-- Modelled from the spec: velocity2volume maps a MIDI velocity to a
normalized amplitude. -/
def velocity2volume (velocity : Nat) : ℚ := (velocity : ℚ) / 127

/-- The SynthSound catalog of src/bin/replayer.rs lines 79-82. -/
inductive SynthSound where
  | SinPulse
  | SimpleTri
deriving DecidableEq

/-- The amplitude factor applied to the oscillator by
SynthSound::sound (src/bin/replayer.rs lines 85-98): in both arms the
waveform is multiplied by the constant velocity/127, with no dependence
on elapsed time and no envelope. -/
def ampFactor : SynthSound → Nat → ℚ → ℚ
  | SynthSound.SinPulse, velocity, _ => (velocity : ℚ) / 127
  | SynthSound.SimpleTri, velocity, _ => (velocity : ℚ) / 127

/-- Set-removal on the notes_in_use DashSet of the replayer. -/
def notes_remove (notes : List Nat) (note : Nat) : List Nat :=
  notes.filter fun n => n != note

/-- Set-insertion on the notes_in_use DashSet of the replayer. -/
def notes_insert (notes : List Nat) (note : Nat) : List Nat :=
  if note ∈ notes then notes else note :: notes

/-- One iteration of RunInstance::listen_play_loop
(src/bin/replayer.rs lines 143-164): a note-off removes the pitch from
notes_in_use; a note-on inserts it and spawns a voice (returned as the
pitch/velocity pair); every other message does nothing. -/
def listen_step (notes : List Nat) (msg : MidiMsg) : List Nat × Option (Nat × Nat) :=
  match msg with
  | MidiMsg.ChannelVoice (ChannelVoiceMsg.NoteOff note _) =>
    (notes_remove notes note, none)
  | MidiMsg.ChannelVoice (ChannelVoiceMsg.NoteOn note velocity) =>
    (notes_insert notes note, some (note, velocity))
  | _ => (notes, none)

/-- The continuation gate of the voice thread spawned by
RunInstance::play_sound (src/bin/replayer.rs line 183): the voice keeps
playing exactly while its pitch is contained in notes_in_use. -/
def voice_gate (notes : List Nat) (note : Nat) : Bool := decide (note ∈ notes)

/-- Sample formats dispatched on by start_output
(src/bin/replayer.rs lines 54-58). -/
inductive SampleFormat where
  | F32
  | I16
  | U16
deriving DecidableEq

/-- Output configuration of an audio device, as used by start_output. -/
structure AudioConfig where
  sample_format : SampleFormat

/-- An audio output device as seen by start_output. -/
structure AudioDevice where
  default_output_config : Option AudioConfig

/-- The audio host as seen by start_output: the default output device
(when one exists) and the further output devices the host knows of,
which start_output never consults. -/
structure AudioHost where
  default_output_device : Option AudioDevice
  output_devices : List AudioDevice

/-- start_output (src/bin/replayer.rs lines 45-60): take the default
output device, failing fatally with the diagnostic of the expect call
when there is none; unwrap its default output config; dispatch on the
sample format and hand off to run, which spawns the playback thread and
returns success. -/
def start_output (host : AudioHost) (synth : SynthSound) : Except String Unit :=
  match host.default_output_device with
  | none => Except.error "failed to find a default output device"
  | some device =>
    match device.default_output_config with
    | none => Except.error "called unwrap on a None default output config"
    | some config =>
      match config.sample_format with
      | SampleFormat.F32 => Except.ok ()
      | SampleFormat.I16 => Except.ok ()
      | SampleFormat.U16 => Except.ok ()

/-- The slots written for one frame by write_data
(src/bin/replayer.rs lines 197-203): the even channels of the frame get
the left sample, the odd channels the right sample. -/
def frameSlots (sample : ℚ × ℚ) (m : Nat) : List ℚ :=
  (List.range m).map fun i => if i % 2 = 0 then sample.1 else sample.2

/-- write_data (src/bin/replayer.rs lines 188-205): walk the output
buffer in chunks of `channels` slots, call next_sample once per chunk
(the frame counter k numbers those calls), and fill the chunk from the
returned stereo pair.  The buffer is represented by its length n; a
zero channel count (on which the Rust chunks_mut would panic) yields the
empty output. -/
def write_data (channels : Nat) (next_sample : Nat → ℚ × ℚ) (k n : Nat) : List ℚ :=
  if h : n = 0 ∨ channels = 0 then []
  else
    frameSlots (next_sample k) (min channels n)
      ++ write_data channels next_sample (k + 1) (n - min channels n)
termination_by n
decreasing_by
  push_neg at h
  omega

lemma ornamentPass_nil (p : ℚ) (gap : ℤ) (draws : List ℚ) (since : ℤ) :
    ornamentPass p gap draws since [] = [] := by
  cases draws <;> simp [ornamentPass]

/-- Claim C1: in every cycle of the record loop, check_if_finished
appends a trailing Rest and terminates the phrase exactly when the open
pending note is a rest whose elapsed time exceeds the replay-delay value
sampled in that cycle; otherwise it leaves the phrase unchanged and the
loop continues. -/
theorem C1_trailing_rest_iff (r : PlayerRecorder) (pn : PendingNote)
    (now replay_delay : ℚ) :
    (check_if_finished r pn now replay_delay =
      if pn.is_rest ∧ replay_delay < pn.elapsed now then
        ({ r with player_melody := r.player_melody ++ [MEvent.rest (pn.elapsed now)] },
          true)
      else (r, false))
    ∧ ∀ (it : RecorderTick) (rest : List RecorderTick),
        recordLoop r (it :: rest) =
          if (recordStep r it).2 then some (recordStep r it).1
          else recordLoop (recordStep r it).1 rest := by
  constructor
  · unfold check_if_finished
    by_cases h : pn.is_rest ∧ replay_delay < pn.elapsed now
    · have hv : pn.velocity = 0 := by
        have h1 := h.1
        simpa [PendingNote.is_rest] using h1
    
      simp [h, pendingToEvent, hv, Melody.add]
    · simp [h]
  · intro it rest
    rfl

/-- Concrete variation with exactly two distinct pitch changes and total
duration 1200. -/
def variation_two_changes : Melody :=
  [MEvent.note 60 100 400, MEvent.note 62 100 400, MEvent.note 64 100 400]

/-- Claim C2: a variation is pushed to the persistence queue and sent to
playback exactly when its pitch-change count reaches the minimum of the
recognized figure lengths and its duration strictly exceeds the
replay-delay parameter; in particular a variation with two pitch
changes under a minimum of three is neither persisted nor played even
with duration 1200 against threshold 1000. -/
theorem C2_acceptance_gate (m v : Melody) (d : ℚ) (db : List FromAiMsg)
    (o : List (SynthChoice × MidiMsg)) :
    (aiCycle m v d db o
        = (db ++ [⟨m, v⟩], o ++ send_recorded_melody v SynthChoice.Ai)
      ↔ min_melody_pitches ≤ v.num_pitch_changes ∧ d < v.duration)
    ∧ min_melody_pitches = 3
    ∧ variation_two_changes.num_pitch_changes = 2
    ∧ variation_two_changes.duration = 1200
    ∧ aiCycle m variation_two_changes 1000 db o = (db, o) := by
  refine ⟨⟨fun hEq => ?_, fun hcond => ?_⟩, by decide, by decide,
    by norm_num [variation_two_changes, Melody.duration, MEvent.duration], ?_⟩
  · by_cases hacc : acceptsVariation v d
    · simpa [acceptsVariation] using hacc
    · exfalso
      simp only [aiCycle, hacc, if_false] at hEq
      have hlen := congrArg (fun pr => pr.1.length) hEq
      simp at hlen
  · have hacc : acceptsVariation v d = true := by
      simp [acceptsVariation, hcond.1, hcond.2]
    simp [aiCycle, hacc]
  · have hacc : acceptsVariation variation_two_changes 1000 = false := by
      simp [acceptsVariation, variation_two_changes, Melody.num_pitch_changes,
        Melody.pitchSeq, countChanges, min_melody_pitches, FIGURE_LENGTHS]
    simp [aiCycle, hacc]

/-- Claim C3: with the Bypass strategy selected in the catalog,
create_variation returns an empty Melody for every input melody and
every slider setting. -/
theorem C3_bypass_returns_empty (perf : Performer) (melody : Melody)
    (hchoices : perf.ai_table.choices = make_ai_table.choices)
    (hname : perf.ai_table.current_name = "Bypass") :
    (create_variation perf melody).1 = Melody.new := by
  have h0 : perf.ai_table.choice = 0 := by
    rw [ChooserTable.current_name, hchoices] at hname
    cases hc : perf.ai_table.choice with
    | zero => rfl
    | succ i =>
      rw [hc] at hname
      exfalso
      cases i with
      | zero => simp [make_ai_table] at hname
      | succ j =>
        cases j with
        | zero => simp [make_ai_table] at hname
        | succ k =>
          cases k with
          | zero => simp [make_ai_table] at hname
          | succ l => simp [make_ai_table] at hname
  have hfun : ChooserTable.current_choice perf.ai_table = bypass := by
    rw [ChooserTable.current_choice, hchoices, h0]
    rfl
  simp [create_variation, hfun, bypass, Melody.new, ornamented, ornamentPass_nil]

/-- Concrete Performer whose catalog selection is the Bypass strategy. -/
def performer_bypass : Performer :=
  { maker := ⟨[]⟩,
    p_random_slider := ⟨1/2, 0, 1⟩,
    p_ornament_slider := ⟨3/10, 0, 1⟩,
    ornament_gap_slider := ⟨2, 0, 10⟩,
    ai_table := make_ai_table }

/-- Witness for claim C3 at a concrete performer and melody. -/
theorem C3_bypass_witness :
    performer_bypass.ai_table.choices = make_ai_table.choices
    ∧ performer_bypass.ai_table.current_name = "Bypass"
    ∧ (create_variation performer_bypass [MEvent.note 60 100 400]).1 = Melody.new :=
  ⟨rfl, rfl, C3_bypass_returns_empty performer_bypass [MEvent.note 60 100 400] rfl rfl⟩

/-- Check whether a message is a note-on or note-off channel-voice
message, the only kinds the recorder reacts to. -/
def is_note_msg (msg : MidiMsg) : Bool :=
  match msg with
  | MidiMsg.ChannelVoice (ChannelVoiceMsg.NoteOn _ _) => true
  | MidiMsg.ChannelVoice (ChannelVoiceMsg.NoteOff _ _) => true
  | _ => false

/-- Claim C6: handle_incoming pushes every consumed message verbatim to
the output queue tagged as human-originated, and messages other than
note-on/note-off leave the pending note and the melody under
construction unchanged. -/
theorem C6_passthrough_and_frame (r : PlayerRecorder) (msg : MidiMsg) (now : ℚ) :
    (handle_incoming r msg now).ai2output
        = r.ai2output ++ [(SynthChoice.Human, msg)]
    ∧ (is_note_msg msg = false →
        (handle_incoming r msg now).waiting = r.waiting
        ∧ (handle_incoming r msg now).player_melody = r.player_melody) := by
  constructor
  · cases msg with
    | ChannelVoice cv => cases cv <;> rfl
    | OtherMsg => rfl
  · intro hmsg
    cases msg with
    | ChannelVoice cv =>
      cases cv with
      | NoteOn n v => simp [is_note_msg] at hmsg
      | NoteOff n v => simp [is_note_msg] at hmsg
      | OtherVoice => exact ⟨rfl, rfl⟩
    | OtherMsg => exact ⟨rfl, rfl⟩

/-- Witness for claim C6 at a concrete recorder state and a
non-note message. -/
theorem C6_passthrough_witness :
    (handle_incoming ⟨none, [], []⟩ (MidiMsg.ChannelVoice ChannelVoiceMsg.OtherVoice) 7).ai2output
        = [(SynthChoice.Human, MidiMsg.ChannelVoice ChannelVoiceMsg.OtherVoice)]
    ∧ (handle_incoming ⟨none, [], []⟩ (MidiMsg.ChannelVoice ChannelVoiceMsg.OtherVoice) 7).waiting
        = none := by
  have h := C6_passthrough_and_frame ⟨none, [], []⟩
    (MidiMsg.ChannelVoice ChannelVoiceMsg.OtherVoice) 7
  exact ⟨by rw [h.1]; rfl, (h.2 rfl).1⟩

/-- Claim C7: create_variation builds the variation as a fresh value
without mutating its input (the embedding is by-value, matching the
immutable borrow in the source), and one accepted cycle forwards the
original melody and the variation together as a single persisted pair,
the original component being exactly the recorded melody. -/
theorem C7_pair_preserves_original (m : Melody) (perf : Performer) (d : ℚ)
    (db : List FromAiMsg) (o : List (SynthChoice × MidiMsg)) :
    (aiCycle m (create_variation perf m).1 d db o).1 = db
    ∨ (aiCycle m (create_variation perf m).1 d db o).1
        = db ++ [⟨m, (create_variation perf m).1⟩] := by
  by_cases hacc : acceptsVariation (create_variation perf m).1 d
  · right
    simp [aiCycle, hacc]
  · left
    simp [aiCycle, hacc]

/-- The recorder state at thread start: no pending note, empty melody,
empty output queue. -/
def recorder_start : PlayerRecorder := ⟨none, [], []⟩

/-- The event trace of claim C4 taken literally: note-on(60,100) at t=0,
note-off(60,100) carrying velocity 100 at t=500, then silence sampled at
t=1501, t=5000 and t=1000000, with the threshold slider at 1000
throughout. -/
def trace_claimed : List RecorderTick :=
  [⟨some (MidiMsg.ChannelVoice (ChannelVoiceMsg.NoteOn 60 100)), 0, 1000⟩,
   ⟨some (MidiMsg.ChannelVoice (ChannelVoiceMsg.NoteOff 60 100)), 500, 1000⟩,
   ⟨none, 1501, 1000⟩,
   ⟨none, 5000, 1000⟩,
   ⟨none, 1000000, 1000⟩]

/-- Counterexample to claim C4 as stated: with the note-off carrying
velocity 100, the pending entry it opens has nonzero velocity, so it
never counts as a rest; the recorder has not returned long after the
threshold has passed (still unfinished at t=1000000), and
check_if_finished still reports unfinished at that instant. -/
theorem C4_counterexample :
    record recorder_start trace_claimed = none
    ∧ (check_if_finished ⟨some ⟨60, 100, 500⟩, [MEvent.note 60 100 500], []⟩
        ⟨60, 100, 500⟩ 1000000 1000).2 = false := by
  constructor
  · norm_num [record, recordLoop, recordStep, handle_incoming, check_if_finished,
      pendingToEvent, PendingNote.is_rest, PendingNote.elapsed, Melody.add,
      recorder_start, trace_claimed]
  · norm_num [check_if_finished, PendingNote.is_rest]

/-- The event trace of the amended claim C4: the note-end arrives as a
velocity-zero event, the form in which this recorder can observe
silence. -/
def trace_amended : List RecorderTick :=
  [⟨some (MidiMsg.ChannelVoice (ChannelVoiceMsg.NoteOn 60 100)), 0, 1000⟩,
   ⟨some (MidiMsg.ChannelVoice (ChannelVoiceMsg.NoteOff 60 0)), 500, 1000⟩,
   ⟨none, 1501, 1000⟩]

/-- Claim C4 as amended: for note-on(60,100) at t=0 followed by a
velocity-zero note-off(60,0) at t=500, threshold 1000 and no further
events, the recorder returns the melody [Note(60,100,500), Rest(1001)],
the trailing rest duration being at least 1000. -/
theorem C4_amended_scenario :
    (record recorder_start trace_amended).map Prod.fst
      = some [MEvent.note 60 100 500, MEvent.rest 1001]
    ∧ (1000 : ℚ) ≤ (MEvent.rest (1001 : ℚ)).duration := by
  constructor
  · norm_num [record, recordLoop, recordStep, handle_incoming, check_if_finished,
      pendingToEvent, PendingNote.is_rest, PendingNote.elapsed, Melody.add,
      synchronize_rests, recorder_start, trace_amended]
  · norm_num [MEvent.duration]

lemma lookupVoice_removeVoice (reg : VoiceRegistry) (pitch : Nat) :
    lookupVoice (removeVoice reg pitch) pitch = none := by
  induction reg with
  | nil => rfl
  | cons hd tl ih =>
    rcases hd with ⟨p, a⟩
    by_cases h : p = pitch
    · subst h
      simpa [removeVoice, List.filter_cons] using ih
    · have hb : (p != pitch) = true := by simp [h]
      simp only [removeVoice, List.filter_cons, hb, if_true] at ih ⊢
      simpa [lookupVoice, h] using ih

/-- Claim C5: while a pitch is present in the registry the adsr_tri gain
closure emits its envelope volume at t; when the envelope first returns
no value the closure emits 0 and removes the pitch, after which it is
absent; once absent, the closure emits 0 at every subsequent sample and
never re-inserts the pitch, so removal happens at most once per note
lifecycle. -/
theorem C5_voice_lifecycle (reg : VoiceRegistry) (pitch : Nat) (t : ℚ) :
    (∀ adsr v, lookupVoice reg pitch = some adsr → adsr.volume t = some v →
      adsr_tri_gain pitch reg t = (v, reg))
    ∧ (∀ adsr, lookupVoice reg pitch = some adsr → adsr.volume t = none →
      adsr_tri_gain pitch reg t = (0, removeVoice reg pitch)
      ∧ lookupVoice (adsr_tri_gain pitch reg t).2 pitch = none)
    ∧ (lookupVoice reg pitch = none → adsr_tri_gain pitch reg t = (0, reg))
    ∧ (∀ ts, lookupVoice reg pitch = none →
      adsr_tri_run pitch reg ts = (ts.map (fun _ => 0), reg)) := by
  refine ⟨?_, ?_, ?_, ?_⟩
  · intro adsr v hl hv
    simp [adsr_tri_gain, hl, hv]
  · intro adsr hl hv
    refine ⟨by simp [adsr_tri_gain, hl, hv], ?_⟩
    simp [adsr_tri_gain, hl, hv, lookupVoice_removeVoice]
  · intro hl
    simp [adsr_tri_gain, hl]
  · intro ts hl
    induction ts with
    | nil => rfl
    | cons t1 ts1 ih =>
      simp [adsr_tri_run, adsr_tri_gain, hl, ih]

/-- Concrete envelope: attack 10, decay 10, sustain 1/2, release
duration 100, release signalled at t=30. -/
def adsr_example : Adsr := ⟨10, 10, 1/2, 100, some 30⟩

/-- Concrete registry holding pitch 60 with the example envelope. -/
def registry_example : VoiceRegistry := [(60, adsr_example)]

/-- Witness for claim C5: at t=15 the present voice emits its envelope
volume 3/4; at t=200 (release over) it emits 0 and is removed; once
absent it emits 0 and stays absent over further samples. -/
theorem C5_voice_lifecycle_witness :
    adsr_tri_gain 60 registry_example 15 = (3 / 4, registry_example)
    ∧ adsr_tri_gain 60 registry_example 200 = (0, [])
    ∧ adsr_tri_gain 60 [] 5 = (0, [])
    ∧ adsr_tri_run 60 [] [1, 2, 3] = ([0, 0, 0], []) := by
  have hv15 : adsr_example.volume 15 = some (3 / 4) := by
    norm_num [Adsr.volume, Adsr.base, adsr_example]
  have hv200 : adsr_example.volume 200 = none := by
    norm_num [Adsr.volume, Adsr.base, adsr_example]
  refine ⟨(C5_voice_lifecycle registry_example 60 15).1 adsr_example (3 / 4) rfl hv15,
    ?_,
    (C5_voice_lifecycle [] 60 5).2.2.1 rfl,
    by simpa using (C5_voice_lifecycle [] 60 0).2.2.2 [1, 2, 3] rfl⟩
  have h := ((C5_voice_lifecycle registry_example 60 200).2.1 adsr_example rfl hv200).1
  simpa [removeVoice, registry_example] using h

/-- Counterexample to claim C8 as stated, at the concrete input
note-off(60,100) with pitch 60 sounding: in the replayer the note-off
removes the pitch from notes_in_use, the continuation gate of the
voice playback thread immediately reads false (the voice is stopped,
with no release phase to pass through), and the synthesized sound has
no envelope at all: its amplitude factor at t=0 equals its amplitude
factor at t=1000, so no decay-to-silence fade exists. -/
theorem C8_counterexample :
    (listen_step [60] (MidiMsg.ChannelVoice (ChannelVoiceMsg.NoteOff 60 100))).1 = []
    ∧ voice_gate
        (listen_step [60] (MidiMsg.ChannelVoice (ChannelVoiceMsg.NoteOff 60 100))).1 60
        = false
    ∧ ampFactor SynthSound.SimpleTri 100 0 = ampFactor SynthSound.SimpleTri 100 1000 := by
  refine ⟨rfl, rfl, rfl⟩

/-- Claim C8 as amended: in the replayer a note-off removes the pitch
from notes_in_use, so the playback-thread gate for that voice reads
false and the voice is stopped by dropping its stream rather than by
marking an envelope for release; the replayer voices carry a constant
velocity-derived amplitude with no time dependence, hence no
decay-to-silence fade. -/
theorem C8_amended_cutoff (notes : List Nat) (note velocity : Nat)
    (s : SynthSound) (v : Nat) (t u : ℚ) :
    voice_gate
      (listen_step notes (MidiMsg.ChannelVoice (ChannelVoiceMsg.NoteOff note velocity))).1
      note = false
    ∧ ampFactor s v t = ampFactor s v u := by
  constructor
  · simp [listen_step, voice_gate, notes_remove, List.mem_filter]
  · cases s <;> rfl

/-- Claim C9: when the host has no default output device, start_output
fails fatally with the diagnostic of the expect call, and it never
consults the host's other output devices (changing them does not change
the outcome). -/
theorem C9_fatal_no_fallback (host : AudioHost) (synth : SynthSound)
    (h : host.default_output_device = none) :
    start_output host synth = Except.error "failed to find a default output device"
    ∧ ∀ ds : List AudioDevice,
        start_output { host with output_devices := ds } synth = start_output host synth := by
  constructor
  · simp [start_output, h]
  · intro ds
    rfl

/-- Concrete host with no default output device but a further working
output device that start_output ignores. -/
def host_no_default : AudioHost := ⟨none, [⟨some ⟨SampleFormat.F32⟩⟩]⟩

/-- Witness for claim C9 at a concrete host. -/
theorem C9_fatal_witness :
    start_output host_no_default SynthSound.SimpleTri
      = Except.error "failed to find a default output device" :=
  (C9_fatal_no_fallback host_no_default SynthSound.SimpleTri rfl).1

lemma frameSlots_length (sample : ℚ × ℚ) (m : Nat) :
    (frameSlots sample m).length = m := by
  simp [frameSlots]

lemma frameSlots_get (sample : ℚ × ℚ) (m i : Nat) (hi : i < m) :
    (frameSlots sample m)[i]?
      = some (if i % 2 = 0 then sample.1 else sample.2) := by
  simp [frameSlots, List.getElem?_map, List.getElem?_range, hi]

lemma write_data_zero (channels : Nat) (next : Nat → ℚ × ℚ) (k : Nat) :
    write_data channels next k 0 = [] := by
  rw [write_data]
  simp

lemma write_data_pos (channels : Nat) (next : Nat → ℚ × ℚ) (k n : Nat)
    (hn : n ≠ 0) (hc : channels ≠ 0) :
    write_data channels next k n
      = frameSlots (next k) (min channels n)
        ++ write_data channels next (k + 1) (n - min channels n) := by
  rw [write_data]
  simp [hn, hc]

lemma write_data_length (channels : Nat) (next : Nat → ℚ × ℚ) (hc : channels ≠ 0) :
    ∀ n k, (write_data channels next k n).length = n := by
  intro n
  induction n using Nat.strong_induction_on with
  | _ n ih =>
    intro k
    rcases Nat.eq_zero_or_pos n with h0 | h0
    · subst h0
      simp [write_data_zero]
    · rw [write_data_pos channels next k n (by omega) hc]
      have hlt : n - min channels n < n := by omega
      rw [List.length_append, frameSlots_length, ih _ hlt]
      omega

lemma write_data_get (channels : Nat) (next : Nat → ℚ × ℚ) (hc : 0 < channels) :
    ∀ k n start i, i < channels → (k + 1) * channels ≤ n →
      (write_data channels next start n)[k * channels + i]?
        = some (if i % 2 = 0 then (next (start + k)).1 else (next (start + k)).2) := by
  intro k
  induction k with
  | zero =>
    intro n start i hi hk
    have hcle : channels ≤ n := by omega
    have hcn : min channels n = channels := by omega
    rw [write_data_pos channels next start n (by omega) (by omega)]
    rw [List.getElem?_append_left (by simpa [frameSlots_length, hcn] using hi)]
    rw [hcn]
    simpa using frameSlots_get (next start) channels i hi
  | succ k ih =>
    intro n start i hi hk
    have hcle : channels ≤ n :=
      le_trans (Nat.le_mul_of_pos_left channels (by omega)) hk
    have hcn : min channels n = channels := by omega
    have hsm : (k + 1 + 1) * channels = k * channels + channels + channels := by ring
    have hidx : (k + 1) * channels + i = channels + (k * channels + i) := by ring
    rw [write_data_pos channels next start n (by omega) (by omega), hcn]
    rw [hidx]
    rw [List.getElem?_append_right (by simp [frameSlots_length])]
    have hrec : (k + 1) * channels ≤ n - channels := by
      have hk2 : k * channels + channels + channels ≤ n := by
        calc k * channels + channels + channels = (k + 1 + 1) * channels := by ring
        _ ≤ n := hk
      have : (k + 1) * channels = k * channels + channels := by ring
      omega
    have hsimp : channels + (k * channels + i) - (frameSlots (next start) channels).length
        = k * channels + i := by
      simp [frameSlots_length]
    rw [hsimp]
    rw [ih (n - channels) (start + 1) i hi hrec]
    have : start + 1 + k = start + (k + 1) := by omega
    rw [this]

/-- Claim C10: for every output buffer length, positive channel count and
sample source, write_data fills the whole buffer (output length equals
buffer length, so no slot of a complete frame is left unwritten), calls
next_sample exactly once per frame of `channels` interleaved slots (the
frame equation consumes one call per chunk), and writes the left value of
the pair of frame k to every even slot of that frame and the right value
to every odd slot. -/
theorem C10_write_data_frames (channels n : Nat) (next : Nat → ℚ × ℚ)
    (hc : 0 < channels) :
    (write_data channels next 0 n).length = n
    ∧ (∀ k m, m ≠ 0 →
        write_data channels next k m
          = frameSlots (next k) (min channels m)
            ++ write_data channels next (k + 1) (m - min channels m))
    ∧ ∀ k i, i < channels → (k + 1) * channels ≤ n →
        (write_data channels next 0 n)[k * channels + i]?
          = some (if i % 2 = 0 then (next k).1 else (next k).2) := by
  refine ⟨write_data_length channels next (by omega) n 0,
    fun k m hm => write_data_pos channels next k m hm (by omega), ?_⟩
  intro k i hi hk
  simpa using write_data_get channels next hc k n 0 i hi hk

/-- Concrete sample source for the write_data witness. -/
def next_sample_pairs (k : Nat) : ℚ × ℚ := ((k : ℚ), (k : ℚ) + 10)

/-- Witness for claim C10 with two channels and a four-slot buffer. -/
theorem C10_write_data_witness :
    (write_data 2 next_sample_pairs 0 4).length = 4
    ∧ (write_data 2 next_sample_pairs 0 4)[2]? = some 1 := by
  have h := C10_write_data_frames 2 4 next_sample_pairs (by decide)
  refine ⟨h.1, ?_⟩
  have h2 := h.2.2 1 0 (by decide) (by decide)
  simpa [next_sample_pairs] using h2
